import Mathlib

/-!
# gmfswatcher: the watcher pipeline of `fswatcher.cpp`

A shallow embedding of `source/fswatcher/fswatcher/fswatcher.cpp`.

* The process-wide globals (`dirHandle`, `stopEvent`, `eventQueue`, `running`,
  `basePath`, `renameOldPath`, `lastModifiedTime`) are the fields of `Watcher`.
* `std::string` is `String`, one character for each `char`; `std::queue<std::string>`
  is a `List String` whose head is the front and to which `push` appends at the back.
* `std::unordered_map<std::string, time_point>` is an association list read by
  `find` (first entry of the key) and written by `assign` (`operator[] =`).
* A `steady_clock::time_point` is its tick count, an `Int` of nanoseconds;
  `duration_cast<milliseconds>` is division by 1000000 rounding toward zero.
* What the operating system supplies is an argument: the clock reading, the
  handles returned by `CreateFileA` and `CreateEvent`, the notification records.
  A record carries its name already converted by `utf16_to_utf8`.
* The worker thread and the caller only share `eventQueue`, under `queueMutex`;
  each record and each exported call is one atomic step on `Watcher`.
-/

namespace FsWatcher

/-! ## Global state -/

/-- A Windows `HANDLE`, as its integer value. -/
abbrev HANDLE := Int

/-- The value `INVALID_HANDLE_VALUE`, which is `(HANDLE)-1`. -/
def INVALID_HANDLE_VALUE : HANDLE := -1

/-- A `steady_clock::time_point`: its count of nanosecond ticks. -/
abbrev TimePoint := Int

/-- The debounce map `lastModifiedTime`: path to time of the last accepted modification. -/
abbrev DebounceMap := List (String × TimePoint)

/-- The constant `DEBOUNCE_MS`. -/
def DEBOUNCE_MS : Int := 100

/-- The globals of `fswatcher.cpp`. -/
structure Watcher where
  dirHandle : HANDLE
  stopEvent : HANDLE
  eventQueue : List String
  running : Bool
  basePath : String
  renameOldPath : String
  lastModifiedTime : DebounceMap
deriving DecidableEq, Repr

/-- The state at load time: the static initialisers of the globals. -/
def Watcher.init : Watcher :=
  { dirHandle := INVALID_HANDLE_VALUE
    stopEvent := INVALID_HANDLE_VALUE
    eventQueue := []
    running := false
    basePath := ""
    renameOldPath := ""
    lastModifiedTime := [] }

/-! ## The debounce map -/

/-- The lookup `lastModifiedTime.find(path)`: `none` stands for `end()`. -/
def DebounceMap.find : DebounceMap → String → Option TimePoint
  | [], _ => none
  | (k, v) :: rest, path => if k = path then some v else DebounceMap.find rest path

/-- The assignment `lastModifiedTime[path] = now`: overwrite the entry, or create it. -/
def DebounceMap.assign : DebounceMap → String → TimePoint → DebounceMap
  | [], path, now => [(path, now)]
  | (k, v) :: rest, path, now =>
    if k = path then (k, now) :: rest else (k, v) :: DebounceMap.assign rest path now

/-! ## Helpers -/

/-- The conversion `duration_cast<milliseconds>(d).count()` of a nanosecond duration. -/
def durationCastMs (d : Int) : Int := Int.tdiv d 1000000

/-- The function `shouldEmitModified`, with the clock reading `now` as an argument:
the answer and the debounce map afterwards. -/
def shouldEmitModified (m : DebounceMap) (now : TimePoint) (path : String) :
    Bool × DebounceMap :=
  match m.find path with
  | some t =>
    if durationCastMs (now - t) < DEBOUNCE_MS then (false, m)
    else (true, m.assign path now)
  | none => (true, m.assign path now)

/-! ## Worker thread -/

/-- The action code `FILE_ACTION_ADDED`. -/
def FILE_ACTION_ADDED : Nat := 1
/-- The action code `FILE_ACTION_REMOVED`. -/
def FILE_ACTION_REMOVED : Nat := 2
/-- The action code `FILE_ACTION_MODIFIED`. -/
def FILE_ACTION_MODIFIED : Nat := 3
/-- The action code `FILE_ACTION_RENAMED_OLD_NAME`. -/
def FILE_ACTION_RENAMED_OLD_NAME : Nat := 4
/-- The action code `FILE_ACTION_RENAMED_NEW_NAME`. -/
def FILE_ACTION_RENAMED_NEW_NAME : Nat := 5

/-- One `FILE_NOTIFY_INFORMATION` record: the action code and the name relative to the
watched directory, the latter as `utf16_to_utf8` returns it. -/
structure FILE_NOTIFY_INFORMATION where
  Action : Nat
  FileName : String
deriving DecidableEq, Repr

/-- The local `fullPath` of the record loop: `basePath + "\\" + filename`. -/
def fullPath (w : Watcher) (filename : String) : String :=
  w.basePath ++ "\\" ++ filename

/-- The `switch (info->Action)` of the record loop: the globals afterwards and the local
`message`, which stays empty when nothing is to be queued. -/
def switchAction (w : Watcher) (now : TimePoint) (info : FILE_NOTIFY_INFORMATION) :
    Watcher × String :=
  let fp := fullPath w info.FileName
  if info.Action = FILE_ACTION_ADDED then
    (w, "CREATED|" ++ fp)
  else if info.Action = FILE_ACTION_REMOVED then
    (w, "DELETED|" ++ fp)
  else if info.Action = FILE_ACTION_MODIFIED then
    let r := shouldEmitModified w.lastModifiedTime now fp
    if r.1 then ({ w with lastModifiedTime := r.2 }, "MODIFIED|" ++ fp)
    else ({ w with lastModifiedTime := r.2 }, "")
  else if info.Action = FILE_ACTION_RENAMED_OLD_NAME then
    ({ w with renameOldPath := fp }, "")
  else if info.Action = FILE_ACTION_RENAMED_NEW_NAME then
    ({ w with renameOldPath := "" }, "RENAMED|" ++ w.renameOldPath ++ "|" ++ fp)
  else
    (w, "")

/-- One turn of the record loop of `watchThread`: decide the message, then push it on
`eventQueue` when it is not empty. `now` is what the clock reads during this turn. -/
def processRecord (w : Watcher) (now : TimePoint) (info : FILE_NOTIFY_INFORMATION) :
    Watcher :=
  let r := switchAction w now info
  if r.2 ≠ "" then { r.1 with eventQueue := r.1.eventQueue ++ [r.2] } else r.1

/-- The record loop of `watchThread` over the records it is delivered, in order, each
with the clock reading of its turn. -/
def watchThread (w : Watcher) : List (TimePoint × FILE_NOTIFY_INFORMATION) → Watcher
  | [] => w
  | (now, info) :: rest => watchThread (processRecord w now info) rest

/-! ## Exports -/

/-- The last character `s.back()`, when `s` is not empty. -/
def back? (s : String) : Option Char := s.data.getLast?

/-- The string after `s.pop_back()`. -/
def pop_back (s : String) : String := ⟨s.data.dropLast⟩

/-- The base path stored by `fswatcher_start`: `path` without one trailing separator. -/
def normalizeBasePath (path : String) : String :=
  match back? path with
  | some c => if c = '\\' ∨ c = '/' then pop_back path else path
  | none => path

/-- The export `fswatcher_start`. `createFile` is the handle `CreateFileA` returns for
`path` and `createEvent` the one `CreateEvent` returns. The result is the globals
afterwards and the returned number. -/
def fswatcher_start (w : Watcher) (path : String) (createFile createEvent : HANDLE) :
    Watcher × Nat :=
  if w.running then (w, 0)
  else
    let w1 := { w with basePath := normalizeBasePath path, dirHandle := createFile }
    if createFile = INVALID_HANDLE_VALUE then (w1, 0)
    else ({ w1 with stopEvent := createEvent, running := true }, 1)

/-- The export `fswatcher_poll`: the globals afterwards and the returned string. -/
def fswatcher_poll (w : Watcher) : Watcher × String :=
  match w.eventQueue with
  | [] => (w, "")
  | e :: rest => ({ w with eventQueue := rest }, e)

/-- The export `fswatcher_stop`. `inflight` is what the worker thread still processes
between `running = false` and the end of `worker.join()`. The result is the globals
afterwards and the returned number. -/
def fswatcher_stop (w : Watcher) (inflight : List (TimePoint × FILE_NOTIFY_INFORMATION)) :
    Watcher × Nat :=
  if !w.running then (w, 0)
  else
    let w1 := watchThread { w with running := false } inflight
    ({ w1 with
        dirHandle := INVALID_HANDLE_VALUE
        stopEvent := INVALID_HANDLE_VALUE
        eventQueue := []
        lastModifiedTime := []
        renameOldPath := "" }, 1)

/-- A number `n` of successive calls of `fswatcher_poll`: the globals afterwards and the
strings returned, in call order. -/
def pollN (w : Watcher) : Nat → Watcher × List String
  | 0 => (w, [])
  | n + 1 =>
    let r := fswatcher_poll w
    let rs := pollN r.1 n
    (rs.1, r.2 :: rs.2)

/-! ## Traces and reachable states -/

/-- The messages the record loop pushes on `eventQueue` while it processes the given
records, in the order of the pushes. -/
def pushed (w : Watcher) : List (TimePoint × FILE_NOTIFY_INFORMATION) → List String
  | [] => []
  | (now, info) :: rest =>
    let m := (switchAction w now info).2
    (if m ≠ "" then [m] else []) ++ pushed (processRecord w now info) rest

/-- No session data is held: the queue, the debounce map and the pending old name of a
rename are all empty. -/
def Watcher.Cleared (w : Watcher) : Prop :=
  w.eventQueue = [] ∧ w.lastModifiedTime = [] ∧ w.renameOldPath = ""

/-- The states the program can be in: it starts in `Watcher.init`, the host calls the
three exports, and the worker thread processes records while `running` is set. -/
inductive Reachable : Watcher → Prop
  | init : Reachable Watcher.init
  | start (w : Watcher) (path : String) (createFile createEvent : HANDLE) :
      Reachable w → Reachable (fswatcher_start w path createFile createEvent).1
  | poll (w : Watcher) : Reachable w → Reachable (fswatcher_poll w).1
  | stop (w : Watcher) (inflight : List (TimePoint × FILE_NOTIFY_INFORMATION)) :
      Reachable w → Reachable (fswatcher_stop w inflight).1
  | record (w : Watcher) (now : TimePoint) (info : FILE_NOTIFY_INFORMATION) :
      Reachable w → w.running = true → Reachable (processRecord w now info)

/-! ## Strings and messages -/

theorem append_ne_empty (a b : String) (h : a ≠ "") : a ++ b ≠ "" := by
  intro e
  apply h
  have hd := congrArg String.data e
  rw [String.data_append] at hd
  have ha : a.data = [] := by
    cases hx : a.data with
    | nil => rfl
    | cons c cs => rw [hx] at hd; simp at hd
  exact String.ext ha

theorem created_ne_empty (p : String) : "CREATED|" ++ p ≠ "" :=
  append_ne_empty _ _ (by decide)

theorem deleted_ne_empty (p : String) : "DELETED|" ++ p ≠ "" :=
  append_ne_empty _ _ (by decide)

theorem modified_ne_empty (p : String) : "MODIFIED|" ++ p ≠ "" :=
  append_ne_empty _ _ (by decide)

theorem renamed_ne_empty (o p : String) : "RENAMED|" ++ o ++ "|" ++ p ≠ "" :=
  append_ne_empty _ _ (append_ne_empty _ _ (append_ne_empty _ _ (by decide)))

/-! ## The debounce map -/

theorem find_assign_same (m : DebounceMap) (p : String) (now : TimePoint) :
    (m.assign p now).find p = some now := by
  induction m with
  | nil => simp [DebounceMap.assign, DebounceMap.find]
  | cons e rest ih =>
    obtain ⟨k, v⟩ := e
    by_cases hk : k = p
    · simp [DebounceMap.assign, DebounceMap.find, hk]
    · simp [DebounceMap.assign, DebounceMap.find, hk, ih]

theorem find_assign_other (m : DebounceMap) (p q : String) (now : TimePoint) (h : q ≠ p) :
    (m.assign p now).find q = m.find q := by
  induction m with
  | nil => simp [DebounceMap.assign, DebounceMap.find, Ne.symm h]
  | cons e rest ih =>
    obtain ⟨k, v⟩ := e
    by_cases hk : k = p
    · subst hk
      simp [DebounceMap.assign, DebounceMap.find, Ne.symm h]
    · by_cases hq : k = q
      · subst hq
        simp [DebounceMap.assign, DebounceMap.find, hk]
      · simp [DebounceMap.assign, DebounceMap.find, hk, hq, ih]

/-- Fewer than 100 whole milliseconds have elapsed exactly when fewer than 100000000
nanoseconds have. -/
theorem durationCastMs_lt_iff (d : Int) : durationCastMs d < DEBOUNCE_MS ↔ d < 100000000 := by
  unfold durationCastMs DEBOUNCE_MS
  rcases le_or_lt 0 d with hd | hd
  · rw [Int.tdiv_eq_ediv hd (by decide)]
    omega
  · have h1 : Int.tdiv d 1000000 = -(Int.tdiv (-d) 1000000) := by
      rw [Int.neg_tdiv, neg_neg]
    rw [h1, Int.tdiv_eq_ediv (by omega) (by decide)]
    omega

/-! ## One record -/

theorem processRecord_added (w : Watcher) (now : TimePoint) (n : String) :
    processRecord w now ⟨FILE_ACTION_ADDED, n⟩ =
      { w with eventQueue := w.eventQueue ++ ["CREATED|" ++ fullPath w n] } := by
  simp [processRecord, switchAction, FILE_ACTION_ADDED, created_ne_empty]

theorem processRecord_removed (w : Watcher) (now : TimePoint) (n : String) :
    processRecord w now ⟨FILE_ACTION_REMOVED, n⟩ =
      { w with eventQueue := w.eventQueue ++ ["DELETED|" ++ fullPath w n] } := by
  simp [processRecord, switchAction, FILE_ACTION_ADDED, FILE_ACTION_REMOVED, deleted_ne_empty]

theorem processRecord_modified (w : Watcher) (now : TimePoint) (n : String) :
    processRecord w now ⟨FILE_ACTION_MODIFIED, n⟩ =
      if (shouldEmitModified w.lastModifiedTime now (fullPath w n)).1 then
        { w with
            lastModifiedTime := (shouldEmitModified w.lastModifiedTime now (fullPath w n)).2
            eventQueue := w.eventQueue ++ ["MODIFIED|" ++ fullPath w n] }
      else
        { w with
            lastModifiedTime :=
              (shouldEmitModified w.lastModifiedTime now (fullPath w n)).2 } := by
  by_cases h : (shouldEmitModified w.lastModifiedTime now (fullPath w n)).1 = true
  · simp [processRecord, switchAction, FILE_ACTION_ADDED, FILE_ACTION_REMOVED,
      FILE_ACTION_MODIFIED, modified_ne_empty, h]
  · simp [processRecord, switchAction, FILE_ACTION_ADDED, FILE_ACTION_REMOVED,
      FILE_ACTION_MODIFIED, h]

theorem processRecord_renamed_old (w : Watcher) (now : TimePoint) (n : String) :
    processRecord w now ⟨FILE_ACTION_RENAMED_OLD_NAME, n⟩ =
      { w with renameOldPath := fullPath w n } := by
  simp [processRecord, switchAction, FILE_ACTION_ADDED, FILE_ACTION_REMOVED,
    FILE_ACTION_MODIFIED, FILE_ACTION_RENAMED_OLD_NAME]

theorem processRecord_renamed_new (w : Watcher) (now : TimePoint) (n : String) :
    processRecord w now ⟨FILE_ACTION_RENAMED_NEW_NAME, n⟩ =
      { w with
          renameOldPath := ""
          eventQueue :=
            w.eventQueue ++ ["RENAMED|" ++ w.renameOldPath ++ "|" ++ fullPath w n] } := by
  simp [processRecord, switchAction, FILE_ACTION_ADDED, FILE_ACTION_REMOVED,
    FILE_ACTION_MODIFIED, FILE_ACTION_RENAMED_OLD_NAME, FILE_ACTION_RENAMED_NEW_NAME,
    renamed_ne_empty]

theorem processRecord_frame (w : Watcher) (now : TimePoint) (info : FILE_NOTIFY_INFORMATION) :
    (processRecord w now info).running = w.running ∧
    (processRecord w now info).basePath = w.basePath ∧
    (processRecord w now info).dirHandle = w.dirHandle ∧
    (processRecord w now info).stopEvent = w.stopEvent := by
  simp only [processRecord, switchAction]
  split_ifs <;> simp

theorem processRecord_eventQueue (w : Watcher) (now : TimePoint)
    (info : FILE_NOTIFY_INFORMATION) :
    (processRecord w now info).eventQueue =
      w.eventQueue ++
        (if (switchAction w now info).2 ≠ "" then [(switchAction w now info).2] else []) := by
  have h : (switchAction w now info).1.eventQueue = w.eventQueue := by
    simp only [switchAction]
    split_ifs <;> rfl
  simp only [processRecord]
  split_ifs <;> simp [h]

/-! ## The base path -/

theorem back_append_backslash (t : String) : back? (t ++ "\\") = some '\\' := by
  have hd : (t ++ "\\").data = t.data ++ ['\\'] := by rw [String.data_append]
  simp [back?, hd]

theorem back_append_slash (t : String) : back? (t ++ "/") = some '/' := by
  have hd : (t ++ "/").data = t.data ++ ['/'] := by rw [String.data_append]
  simp [back?, hd]

theorem normalizeBasePath_backslash (t : String) : normalizeBasePath (t ++ "\\") = t := by
  have hd : (t ++ "\\").data = t.data ++ ['\\'] := by rw [String.data_append]
  simp [normalizeBasePath, back_append_backslash, pop_back, hd]

theorem normalizeBasePath_slash (t : String) : normalizeBasePath (t ++ "/") = t := by
  have hd : (t ++ "/").data = t.data ++ ['/'] := by rw [String.data_append]
  simp [normalizeBasePath, back_append_slash, pop_back, hd]

theorem normalizeBasePath_other (path : String)
    (h : ∀ t : String, path ≠ t ++ "\\" ∧ path ≠ t ++ "/") : normalizeBasePath path = path := by
  unfold normalizeBasePath
  cases hb : back? path with
  | none => rfl
  | some c =>
    have hl : path.data.dropLast ++ [c] = path.data :=
      List.dropLast_append_getLast? c (by simpa [back?] using hb)
    by_cases hc : c = '\\' ∨ c = '/'
    · exfalso
      rcases hc with hc | hc
      · apply (h (pop_back path)).1
        apply String.ext
        rw [String.data_append, ← hl, hc]
        simp [pop_back]
      · apply (h (pop_back path)).2
        apply String.ext
        rw [String.data_append, ← hl, hc]
        simp [pop_back]
    · simp [hc]

/-! ## The record loop -/

theorem watchThread_frame (w : Watcher) (rs : List (TimePoint × FILE_NOTIFY_INFORMATION)) :
    (watchThread w rs).running = w.running ∧
    (watchThread w rs).basePath = w.basePath ∧
    (watchThread w rs).dirHandle = w.dirHandle ∧
    (watchThread w rs).stopEvent = w.stopEvent := by
  induction rs generalizing w with
  | nil => simp [watchThread]
  | cons r rest ih =>
    obtain ⟨now, info⟩ := r
    have h := processRecord_frame w now info
    have h2 := ih (processRecord w now info)
    simp only [watchThread]
    exact ⟨h2.1.trans h.1, h2.2.1.trans h.2.1, h2.2.2.1.trans h.2.2.1,
      h2.2.2.2.trans h.2.2.2⟩

theorem watchThread_eventQueue (w : Watcher)
    (rs : List (TimePoint × FILE_NOTIFY_INFORMATION)) :
    (watchThread w rs).eventQueue = w.eventQueue ++ pushed w rs := by
  induction rs generalizing w with
  | nil => simp [watchThread, pushed]
  | cons r rest ih =>
    obtain ⟨now, info⟩ := r
    simp only [watchThread, pushed]
    rw [ih, processRecord_eventQueue, List.append_assoc]

theorem pushed_ne_empty (w : Watcher) (rs : List (TimePoint × FILE_NOTIFY_INFORMATION)) :
    ∀ e ∈ pushed w rs, e ≠ "" := by
  induction rs generalizing w with
  | nil => simp [pushed]
  | cons r rest ih =>
    obtain ⟨now, info⟩ := r
    intro e he
    simp only [pushed, List.mem_append] at he
    rcases he with he | he
    · split_ifs at he with hm
      · simp only [List.mem_singleton] at he
        rw [he]
        exact hm
      · simp at he
    · exact ih _ e he

/-! ## Polling -/

theorem pollN_drains (q : List String) (w : Watcher) (k : Nat) (h : w.eventQueue = q) :
    pollN w (q.length + k) = ({ w with eventQueue := [] }, q ++ List.replicate k "") := by
  induction q generalizing w with
  | nil =>
    induction k with
    | zero =>
      cases w
      simp_all [pollN]
    | succ k ih =>
      simp only [List.length_nil, Nat.zero_add] at ih ⊢
      simp only [pollN, fswatcher_poll, h, ih, List.replicate_succ, List.nil_append]
  | cons e rest ih =>
    have hstep : fswatcher_poll w = ({ w with eventQueue := rest }, e) := by
      simp [fswatcher_poll, h]
    have hlen : (e :: rest).length + k = (rest.length + k) + 1 := by
      simp only [List.length_cons]; omega
    rw [hlen]
    simp only [pollN, hstep]
    rw [ih { w with eventQueue := rest } rfl]
    simp

/-! ## Reachable states -/

theorem cleared_of_not_running (w : Watcher) (hr : Reachable w) (h : w.running = false) :
    w.Cleared := by
  induction hr with
  | init => exact ⟨rfl, rfl, rfl⟩
  | start w path cf ce _ ih =>
    by_cases hrun : w.running = true
    · simp only [fswatcher_start, hrun, if_true] at h
      cases h
    · have hf : w.running = false := by simpa using hrun
      by_cases hc : cf = INVALID_HANDLE_VALUE
      · simp only [fswatcher_start, hf, hc] at h ⊢
        exact ih hf
      · simp [fswatcher_start, hf, hc] at h
  | poll w _ ih =>
    have hrun : (fswatcher_poll w).1.running = w.running := by
      simp only [fswatcher_poll]; split <;> rfl
    have hc := ih (hrun ▸ h)
    have hq : fswatcher_poll w = (w, "") := by simp [fswatcher_poll, hc.1]
    rw [hq]
    exact hc
  | stop w inflight _ ih =>
    by_cases hrun : w.running = true
    · simp only [fswatcher_stop, hrun]
      exact ⟨rfl, rfl, rfl⟩
    · have hf : w.running = false := by simpa using hrun
      simp only [fswatcher_stop, hf]
      exact ih hf
  | record w now info _ hrun _ =>
    rw [(processRecord_frame w now info).1, hrun] at h
    cases h

/-! ## Debounce of modifications -/

/-- C1: a Modified record for the path `p` is queued as `MODIFIED|p` and stamps `p` with
the clock reading when `p` has no stamp or at least 100 whole milliseconds have elapsed
since its stamp, every other stamp staying as it was; otherwise the record changes
nothing, so a suppressed record does not move the stamp: after a stamp at `t0`, a record
suppressed at `t1` and one at `t2`, 100 ms or more after `t0`, the latter is queued. -/
theorem modified_debounce (w : Watcher) (now : TimePoint) (name : String) :
    ((w.lastModifiedTime.find (fullPath w name) = none ∨
        ∃ t, w.lastModifiedTime.find (fullPath w name) = some t ∧
          100 ≤ durationCastMs (now - t)) →
      processRecord w now ⟨FILE_ACTION_MODIFIED, name⟩ =
        { w with
            eventQueue := w.eventQueue ++ ["MODIFIED|" ++ fullPath w name]
            lastModifiedTime := w.lastModifiedTime.assign (fullPath w name) now } ∧
      (w.lastModifiedTime.assign (fullPath w name) now).find (fullPath w name) = some now ∧
      ∀ q, q ≠ fullPath w name →
        (w.lastModifiedTime.assign (fullPath w name) now).find q =
          w.lastModifiedTime.find q) ∧
    ((∃ t, w.lastModifiedTime.find (fullPath w name) = some t ∧
          durationCastMs (now - t) < 100) →
      processRecord w now ⟨FILE_ACTION_MODIFIED, name⟩ = w) ∧
    (∀ t0 t1 t2 : TimePoint,
      w.lastModifiedTime.find (fullPath w name) = some t0 →
      durationCastMs (t1 - t0) < 100 → 100 ≤ durationCastMs (t2 - t0) →
      watchThread w [(t1, ⟨FILE_ACTION_MODIFIED, name⟩), (t2, ⟨FILE_ACTION_MODIFIED, name⟩)] =
        { w with
            eventQueue := w.eventQueue ++ ["MODIFIED|" ++ fullPath w name]
            lastModifiedTime := w.lastModifiedTime.assign (fullPath w name) t2 }) := by
  have accept : ∀ (v : Watcher) (t : TimePoint),
      (v.lastModifiedTime.find (fullPath v name) = none ∨
        ∃ t', v.lastModifiedTime.find (fullPath v name) = some t' ∧
          100 ≤ durationCastMs (t - t')) →
      processRecord v t ⟨FILE_ACTION_MODIFIED, name⟩ =
        { v with
            eventQueue := v.eventQueue ++ ["MODIFIED|" ++ fullPath v name]
            lastModifiedTime := v.lastModifiedTime.assign (fullPath v name) t } := by
    intro v t h
    rw [processRecord_modified]
    rcases h with h | ⟨t', h, hge⟩
    · simp [shouldEmitModified, h]
    · have hn : ¬ durationCastMs (t - t') < DEBOUNCE_MS := by
        simp only [DEBOUNCE_MS]; omega
      simp [shouldEmitModified, h, hn]
  have suppress : ∀ (v : Watcher) (t : TimePoint),
      (∃ t', v.lastModifiedTime.find (fullPath v name) = some t' ∧
          durationCastMs (t - t') < 100) →
      processRecord v t ⟨FILE_ACTION_MODIFIED, name⟩ = v := by
    intro v t h
    obtain ⟨t', h, hlt⟩ := h
    rw [processRecord_modified]
    have hn : durationCastMs (t - t') < DEBOUNCE_MS := by
      simp only [DEBOUNCE_MS]; omega
    simp [shouldEmitModified, h, hn]
  refine ⟨fun h => ⟨accept w now h, find_assign_same _ _ _, ?_⟩, suppress w now, ?_⟩
  · intro q hq
    exact find_assign_other _ _ _ _ hq
  · intro t0 t1 t2 h0 h1 h2
    simp only [watchThread]
    rw [suppress w t1 ⟨t0, h0, h1⟩, accept w t2 (Or.inr ⟨t0, h0, h2⟩)]

/-- C1, at an instance: with no stamp, a record for `C:\w\a.txt` at 7 ns is queued; with
a stamp at 0, a record at 60 ms is suppressed and one at 110 ms is queued, although only
50 ms after the suppressed one. -/
theorem modified_debounce_witness :
    processRecord { Watcher.init with basePath := "C:\\w" } 7 ⟨FILE_ACTION_MODIFIED, "a.txt"⟩ =
      { Watcher.init with
          basePath := "C:\\w"
          eventQueue := ["MODIFIED|C:\\w\\a.txt"]
          lastModifiedTime := [("C:\\w\\a.txt", 7)] } ∧
    processRecord
        { Watcher.init with
            basePath := "C:\\w", lastModifiedTime := [("C:\\w\\a.txt", 0)] }
        60000000 ⟨FILE_ACTION_MODIFIED, "a.txt"⟩ =
      { Watcher.init with
          basePath := "C:\\w", lastModifiedTime := [("C:\\w\\a.txt", 0)] } ∧
    watchThread
        { Watcher.init with
            basePath := "C:\\w", lastModifiedTime := [("C:\\w\\a.txt", 0)] }
        [(60000000, ⟨FILE_ACTION_MODIFIED, "a.txt"⟩),
          (110000000, ⟨FILE_ACTION_MODIFIED, "a.txt"⟩)] =
      { Watcher.init with
          basePath := "C:\\w"
          eventQueue := ["MODIFIED|C:\\w\\a.txt"]
          lastModifiedTime := [("C:\\w\\a.txt", 110000000)] } :=
  ⟨((modified_debounce { Watcher.init with basePath := "C:\\w" } 7 "a.txt").1
      (Or.inl (by decide))).1,
    (modified_debounce
      { Watcher.init with basePath := "C:\\w", lastModifiedTime := [("C:\\w\\a.txt", 0)] }
      60000000 "a.txt").2.1 ⟨0, by decide, by decide⟩,
    (modified_debounce
      { Watcher.init with basePath := "C:\\w", lastModifiedTime := [("C:\\w\\a.txt", 0)] }
      0 "a.txt").2.2 0 60000000 110000000 (by decide) (by decide) (by decide)⟩

/-! ## Rename pairing -/

/-- C2: from every state, a RenameOld record for `old` followed at once by a RenameNew
record for `new` queues nothing at the first record and exactly `RENAMED|old|new` at the
second, and leaves the pending old name empty; nothing else changes. -/
theorem rename_pair (w : Watcher) (t1 t2 : TimePoint) (old new : String) :
    (processRecord w t1 ⟨FILE_ACTION_RENAMED_OLD_NAME, old⟩).eventQueue = w.eventQueue ∧
    processRecord (processRecord w t1 ⟨FILE_ACTION_RENAMED_OLD_NAME, old⟩) t2
        ⟨FILE_ACTION_RENAMED_NEW_NAME, new⟩ =
      { w with
          eventQueue :=
            w.eventQueue ++ ["RENAMED|" ++ fullPath w old ++ "|" ++ fullPath w new]
          renameOldPath := "" } := by
  simp [processRecord_renamed_old, processRecord_renamed_new, fullPath]

/-- C3: RenameOld for `p1`, RenameOld for `p2`, RenameNew for `q`, in that order, queue
nothing at the first two records and exactly `RENAMED|p2|q` at the third; the state
afterwards is the one reached without the first record, so `p1` is dropped. -/
theorem rename_old_overwrite (w : Watcher) (t1 t2 t3 : TimePoint) (p1 p2 q : String) :
    (watchThread w [(t1, ⟨FILE_ACTION_RENAMED_OLD_NAME, p1⟩),
        (t2, ⟨FILE_ACTION_RENAMED_OLD_NAME, p2⟩)]).eventQueue = w.eventQueue ∧
    watchThread w [(t1, ⟨FILE_ACTION_RENAMED_OLD_NAME, p1⟩),
        (t2, ⟨FILE_ACTION_RENAMED_OLD_NAME, p2⟩), (t3, ⟨FILE_ACTION_RENAMED_NEW_NAME, q⟩)] =
      { w with
          eventQueue := w.eventQueue ++ ["RENAMED|" ++ fullPath w p2 ++ "|" ++ fullPath w q]
          renameOldPath := "" } ∧
    watchThread w [(t1, ⟨FILE_ACTION_RENAMED_OLD_NAME, p1⟩),
        (t2, ⟨FILE_ACTION_RENAMED_OLD_NAME, p2⟩), (t3, ⟨FILE_ACTION_RENAMED_NEW_NAME, q⟩)] =
      watchThread w [(t2, ⟨FILE_ACTION_RENAMED_OLD_NAME, p2⟩),
        (t3, ⟨FILE_ACTION_RENAMED_NEW_NAME, q⟩)] := by
  simp [watchThread, processRecord_renamed_old, processRecord_renamed_new, fullPath]

/-! ## Added and Removed records -/

/-- C4: from every state, a sequence of Added and Removed records appends one event per
record, in record order, `CREATED|path` for Added and `DELETED|path` for Removed, and
changes nothing but the queue. -/
theorem added_removed_pass_through (w : Watcher)
    (rs : List (TimePoint × FILE_NOTIFY_INFORMATION))
    (h : ∀ r ∈ rs, r.2.Action = FILE_ACTION_ADDED ∨ r.2.Action = FILE_ACTION_REMOVED) :
    watchThread w rs =
      { w with
          eventQueue := w.eventQueue ++ rs.map fun r =>
            if r.2.Action = FILE_ACTION_ADDED then "CREATED|" ++ fullPath w r.2.FileName
            else "DELETED|" ++ fullPath w r.2.FileName } := by
  induction rs generalizing w with
  | nil => simp [watchThread]
  | cons r rest ih =>
    obtain ⟨now, ⟨action, n⟩⟩ := r
    have hrest : ∀ r ∈ rest,
        r.2.Action = FILE_ACTION_ADDED ∨ r.2.Action = FILE_ACTION_REMOVED :=
      fun r hr => h r (List.mem_cons_of_mem _ hr)
    rcases h (now, ⟨action, n⟩) (List.mem_cons_self _ _) with ha | ha
    · simp only at ha
      subst ha
      simp only [watchThread]
      rw [processRecord_added, ih _ hrest]
      simp [fullPath]
    · simp only at ha
      subst ha
      simp only [watchThread]
      rw [processRecord_removed, ih _ hrest]
      simp [fullPath, FILE_ACTION_REMOVED, FILE_ACTION_ADDED]

/-- C4, at an instance: an Added, a Removed and an Added record, with a rename pending. -/
theorem added_removed_pass_through_witness :
    watchThread { Watcher.init with basePath := "C:\\w", renameOldPath := "C:\\w\\x" }
        [(0, ⟨FILE_ACTION_ADDED, "a"⟩), (1, ⟨FILE_ACTION_REMOVED, "a"⟩),
          (2, ⟨FILE_ACTION_ADDED, "b"⟩)] =
      { Watcher.init with
          basePath := "C:\\w"
          renameOldPath := "C:\\w\\x"
          eventQueue := ["CREATED|C:\\w\\a", "DELETED|C:\\w\\a", "CREATED|C:\\w\\b"] } :=
  added_removed_pass_through
    { Watcher.init with basePath := "C:\\w", renameOldPath := "C:\\w\\x" }
    [(0, ⟨FILE_ACTION_ADDED, "a"⟩), (1, ⟨FILE_ACTION_REMOVED, "a"⟩),
      (2, ⟨FILE_ACTION_ADDED, "b"⟩)]
    (by decide)

/-! ## The hand-off queue -/

/-- C5: when the record loop runs on an empty queue, the queue holds exactly the messages
it pushed, in push order, none of them empty; as many polls as there are messages return
them in that order, each once, and empty the queue; every further poll returns the empty
string; and a poll on an empty queue returns the empty string and changes nothing. -/
theorem poll_fifo (w : Watcher) (rs : List (TimePoint × FILE_NOTIFY_INFORMATION)) (k : Nat)
    (h : w.eventQueue = []) :
    (watchThread w rs).eventQueue = pushed w rs ∧
    (∀ e ∈ pushed w rs, e ≠ "") ∧
    pollN (watchThread w rs) (pushed w rs).length =
      ({ watchThread w rs with eventQueue := [] }, pushed w rs) ∧
    pollN (watchThread w rs) ((pushed w rs).length + k) =
      ({ watchThread w rs with eventQueue := [] }, pushed w rs ++ List.replicate k "") ∧
    ∀ v : Watcher, v.eventQueue = [] → fswatcher_poll v = (v, "") := by
  have hq : (watchThread w rs).eventQueue = pushed w rs := by
    rw [watchThread_eventQueue, h, List.nil_append]
  refine ⟨hq, pushed_ne_empty w rs, ?_, pollN_drains _ _ k hq, ?_⟩
  · have := pollN_drains _ _ 0 hq
    simpa using this
  · intro v hv
    simp [fswatcher_poll, hv]

/-- C5, at an instance: three records, one of them a suppressed modification, then four
polls. -/
theorem poll_fifo_witness :
    pollN
        (watchThread { Watcher.init with basePath := "C:\\w", running := true }
          [(0, ⟨FILE_ACTION_MODIFIED, "a"⟩), (5, ⟨FILE_ACTION_MODIFIED, "a"⟩),
            (9, ⟨FILE_ACTION_REMOVED, "a"⟩)]) 4 =
      ({ Watcher.init with
          basePath := "C:\\w", running := true, lastModifiedTime := [("C:\\w\\a", 0)] },
        ["MODIFIED|C:\\w\\a", "DELETED|C:\\w\\a", "", ""]) :=
  (poll_fifo { Watcher.init with basePath := "C:\\w", running := true }
    [(0, ⟨FILE_ACTION_MODIFIED, "a"⟩), (5, ⟨FILE_ACTION_MODIFIED, "a"⟩),
      (9, ⟨FILE_ACTION_REMOVED, "a"⟩)] 2 rfl).2.2.2.1

/-! ## The session life cycle -/

/-- C6: on every running state, and whatever the worker thread still processes before it
is joined, `fswatcher_stop` returns 1 and leaves the queue, the debounce map and the
pending old name empty and `running` unset; a poll then returns the empty string; and
after a following start that succeeds, a Modified record for any name, at any clock
reading, is queued at once as the only event of the queue. -/
theorem stop_resets (w : Watcher) (inflight : List (TimePoint × FILE_NOTIFY_INFORMATION))
    (h : w.running = true) :
    (fswatcher_stop w inflight).2 = 1 ∧
    (fswatcher_stop w inflight).1.eventQueue = [] ∧
    (fswatcher_stop w inflight).1.lastModifiedTime = [] ∧
    (fswatcher_stop w inflight).1.renameOldPath = "" ∧
    (fswatcher_stop w inflight).1.running = false ∧
    (fswatcher_poll (fswatcher_stop w inflight).1).2 = "" ∧
    ∀ (path : String) (createFile createEvent : HANDLE),
      createFile ≠ INVALID_HANDLE_VALUE →
      (fswatcher_start (fswatcher_stop w inflight).1 path createFile createEvent).2 = 1 ∧
      ∀ (now : TimePoint) (name : String),
        (processRecord
            (fswatcher_start (fswatcher_stop w inflight).1 path createFile createEvent).1
            now ⟨FILE_ACTION_MODIFIED, name⟩).eventQueue =
          ["MODIFIED|" ++ (normalizeBasePath path ++ "\\" ++ name)] := by
  have hrun : (watchThread { w with running := false } inflight).running = false :=
    (watchThread_frame _ inflight).1
  refine ⟨?_, ?_, ?_, ?_, ?_, ?_, ?_⟩
  · simp [fswatcher_stop, h]
  · simp [fswatcher_stop, h]
  · simp [fswatcher_stop, h]
  · simp [fswatcher_stop, h]
  · simp [fswatcher_stop, h, hrun]
  · simp [fswatcher_stop, h, fswatcher_poll]
  · intro path cf ce hcf
    refine ⟨?_, ?_⟩
    · simp [fswatcher_stop, h, hrun, fswatcher_start, hcf]
    · intro now name
      rw [processRecord_modified]
      simp [fswatcher_stop, h, hrun, fswatcher_start, hcf, shouldEmitModified,
        DebounceMap.find, fullPath]

/-- C6, at an instance: a session with a queued event and a stamp for `C:\w\a` at 0 is
stopped and started again, and a Modified record for `a` at 1 ns is queued. -/
theorem stop_resets_witness :
    (processRecord
        (fswatcher_start
          (fswatcher_stop
            { Watcher.init with
                running := true, basePath := "C:\\w", eventQueue := ["MODIFIED|C:\\w\\a"],
                lastModifiedTime := [("C:\\w\\a", 0)] } []).1
          "C:\\w\\" 7 8).1
        1 ⟨FILE_ACTION_MODIFIED, "a"⟩).eventQueue =
      ["MODIFIED|" ++ (normalizeBasePath "C:\\w\\" ++ "\\" ++ "a")] :=
  ((stop_resets
      { Watcher.init with
          running := true, basePath := "C:\\w", eventQueue := ["MODIFIED|C:\\w\\a"],
          lastModifiedTime := [("C:\\w\\a", 0)] } [] rfl).2.2.2.2.2.2
    "C:\\w\\" 7 8 (by decide)).2 1 "a"

/-- C7: on a running state `fswatcher_start` returns 0 and changes nothing, whatever the
path and whatever the system calls would return; on a state that is not running
`fswatcher_stop` returns 0 and changes nothing, however many times it is called. -/
theorem rejected_calls_atomic (w : Watcher) :
    (w.running = true → ∀ (path : String) (createFile createEvent : HANDLE),
      fswatcher_start w path createFile createEvent = (w, 0)) ∧
    (w.running = false → ∀ inflight : List (TimePoint × FILE_NOTIFY_INFORMATION),
      fswatcher_stop w inflight = (w, 0) ∧
      ∀ n : Nat, (fun v => (fswatcher_stop v inflight).1)^[n] w = w) := by
  refine ⟨?_, ?_⟩
  · intro h path cf ce
    simp [fswatcher_start, h]
  · intro h inflight
    have hs : fswatcher_stop w inflight = (w, 0) := by simp [fswatcher_stop, h]
    refine ⟨hs, ?_⟩
    intro n
    induction n with
    | zero => rfl
    | succ n ih => rw [Function.iterate_succ_apply, hs, ih]

/-- C7, at an instance: a second start on a running session that holds a queued event,
and three stops on a state that is not running. -/
theorem rejected_calls_atomic_witness :
    fswatcher_start
        { Watcher.init with
            running := true, dirHandle := 7, stopEvent := 8, basePath := "C:\\w",
            eventQueue := ["CREATED|C:\\w\\a"] }
        "D:\\other\\" 9 10 =
      ({ Watcher.init with
            running := true, dirHandle := 7, stopEvent := 8, basePath := "C:\\w",
            eventQueue := ["CREATED|C:\\w\\a"] }, 0) ∧
    (fun v => (fswatcher_stop v []).1)^[3] { Watcher.init with basePath := "C:\\w" } =
      { Watcher.init with basePath := "C:\\w" } :=
  ⟨(rejected_calls_atomic
      { Watcher.init with
          running := true, dirHandle := 7, stopEvent := 8, basePath := "C:\\w",
          eventQueue := ["CREATED|C:\\w\\a"] }).1 rfl "D:\\other\\" 9 10,
    ((rejected_calls_atomic { Watcher.init with basePath := "C:\\w" }).2 rfl []).2 3⟩

/-! ## The end-to-end scenario -/

/-- C8, as the code behaves: after a successful start with `/tmp/w` on a reachable state,
the records Added `a.txt`, Modified `a.txt` twice less than 50 ms apart, RenameOld
`a.txt`, RenameNew `b.txt`, Removed `b.txt` make five polls return `CREATED|/tmp/w\a.txt`,
`MODIFIED|/tmp/w\a.txt`, `RENAMED|/tmp/w\a.txt|/tmp/w\b.txt`, `DELETED|/tmp/w\b.txt` and
the empty string: the base path and the name are joined by a backslash. -/
theorem scenario_events (w : Watcher) (createFile createEvent : HANDLE)
    (t0 t1 t2 t3 t4 t5 : TimePoint) (hr : Reachable w)
    (hs : (fswatcher_start w "/tmp/w" createFile createEvent).2 = 1)
    (h50 : t2 - t1 < 50000000) :
    (pollN
        (watchThread (fswatcher_start w "/tmp/w" createFile createEvent).1
          [(t0, ⟨FILE_ACTION_ADDED, "a.txt"⟩), (t1, ⟨FILE_ACTION_MODIFIED, "a.txt"⟩),
            (t2, ⟨FILE_ACTION_MODIFIED, "a.txt"⟩), (t3, ⟨FILE_ACTION_RENAMED_OLD_NAME, "a.txt"⟩),
            (t4, ⟨FILE_ACTION_RENAMED_NEW_NAME, "b.txt"⟩),
            (t5, ⟨FILE_ACTION_REMOVED, "b.txt"⟩)]) 5).2 =
      ["CREATED|/tmp/w\\a.txt", "MODIFIED|/tmp/w\\a.txt",
        "RENAMED|/tmp/w\\a.txt|/tmp/w\\b.txt", "DELETED|/tmp/w\\b.txt", ""] := by
  have hf : w.running = false := by
    by_cases hrun : w.running = true
    · simp [fswatcher_start, hrun] at hs
    · simpa using hrun
  have hcf : createFile ≠ INVALID_HANDLE_VALUE := by
    intro hc
    simp [fswatcher_start, hf, hc] at hs
  obtain ⟨hq, hm, ho⟩ := cleared_of_not_running w hr hf
  have hnorm : normalizeBasePath "/tmp/w" = "/tmp/w" := by decide
  have hstart : fswatcher_start w "/tmp/w" createFile createEvent =
      ({ w with
          basePath := "/tmp/w", dirHandle := createFile, stopEvent := createEvent,
          running := true }, 1) := by
    simp [fswatcher_start, hf, hcf, hnorm]
  have hlt : durationCastMs (t2 - t1) < DEBOUNCE_MS := by
    rw [durationCastMs_lt_iff]
    exact lt_trans h50 (by decide)
  have hpath : ("/tmp/w" : String) ++ "\\" ++ "a.txt" = "/tmp/w\\a.txt" := by decide
  have hpathb : ("/tmp/w" : String) ++ "\\" ++ "b.txt" = "/tmp/w\\b.txt" := by decide
  rw [hstart]
  simp [watchThread, processRecord_added, processRecord_removed, processRecord_modified,
    processRecord_renamed_old, processRecord_renamed_new, fullPath, hq, hm, ho, hpath, hpathb,
    shouldEmitModified, DebounceMap.find, DebounceMap.assign, hlt, pollN, fswatcher_poll]

/-- C8, at an instance: the session starts from the load-time state and the two
modifications are 40 ms apart. -/
theorem scenario_events_witness :
    (pollN
        (watchThread (fswatcher_start Watcher.init "/tmp/w" 7 8).1
          [(0, ⟨FILE_ACTION_ADDED, "a.txt"⟩), (1000, ⟨FILE_ACTION_MODIFIED, "a.txt"⟩),
            (40001000, ⟨FILE_ACTION_MODIFIED, "a.txt"⟩),
            (50000000, ⟨FILE_ACTION_RENAMED_OLD_NAME, "a.txt"⟩),
            (50000001, ⟨FILE_ACTION_RENAMED_NEW_NAME, "b.txt"⟩),
            (60000000, ⟨FILE_ACTION_REMOVED, "b.txt"⟩)]) 5).2 =
      ["CREATED|/tmp/w\\a.txt", "MODIFIED|/tmp/w\\a.txt",
        "RENAMED|/tmp/w\\a.txt|/tmp/w\\b.txt", "DELETED|/tmp/w\\b.txt", ""] :=
  scenario_events Watcher.init 7 8 0 1000 40001000 50000000 50000001 60000000
    Reachable.init (by decide) (by decide)

/-- C8, as stated, fails: in the same run the polls do not return the events with
`/tmp/w/a.txt` and `/tmp/w/b.txt`; the first one is `CREATED|/tmp/w\a.txt`. -/
theorem scenario_events_counterexample :
    (pollN
        (watchThread (fswatcher_start Watcher.init "/tmp/w" 7 8).1
          [(0, ⟨FILE_ACTION_ADDED, "a.txt"⟩), (1000, ⟨FILE_ACTION_MODIFIED, "a.txt"⟩),
            (40001000, ⟨FILE_ACTION_MODIFIED, "a.txt"⟩),
            (50000000, ⟨FILE_ACTION_RENAMED_OLD_NAME, "a.txt"⟩),
            (50000001, ⟨FILE_ACTION_RENAMED_NEW_NAME, "b.txt"⟩),
            (60000000, ⟨FILE_ACTION_REMOVED, "b.txt"⟩)]) 5).2 ≠
      ["CREATED|/tmp/w/a.txt", "MODIFIED|/tmp/w/a.txt",
        "RENAMED|/tmp/w/a.txt|/tmp/w/b.txt", "DELETED|/tmp/w/b.txt", ""] ∧
    (fswatcher_poll
        (watchThread (fswatcher_start Watcher.init "/tmp/w" 7 8).1
          [(0, ⟨FILE_ACTION_ADDED, "a.txt"⟩)])).2 = "CREATED|/tmp/w\\a.txt" := by
  decide

/-! ## Base path and path resolution -/

/-- C9: a start on a state that is not running stores the given path without its last
character when that is a backslash or a slash (so one of two trailing separators stays),
and stores it unchanged otherwise (so the empty path stays empty), whether or not the
directory can be opened; the record loop never changes the stored base path; and the path
a record with name `n` puts in its event, or in the pending old name, is the stored base
path, one backslash, then `n` as it is, also when `n` holds a `|`. -/
theorem base_path_and_resolution (w : Watcher) (path : String)
    (createFile createEvent : HANDLE) (now : TimePoint) (n : String) :
    (w.running = false →
      (∀ t : String, path = t ++ "\\" ∨ path = t ++ "/" →
        (fswatcher_start w path createFile createEvent).1.basePath = t) ∧
      ((∀ t : String, path ≠ t ++ "\\" ∧ path ≠ t ++ "/") →
        (fswatcher_start w path createFile createEvent).1.basePath = path)) ∧
    (∀ t : String, normalizeBasePath (t ++ "\\" ++ "\\") = t ++ "\\" ∧
      normalizeBasePath (t ++ "/" ++ "/") = t ++ "/" ∧
      normalizeBasePath (t ++ "\\" ++ "/") = t ++ "\\" ∧
      normalizeBasePath (t ++ "/" ++ "\\") = t ++ "/") ∧
    normalizeBasePath "" = "" ∧
    (∀ rs : List (TimePoint × FILE_NOTIFY_INFORMATION),
      (watchThread w rs).basePath = w.basePath) ∧
    (switchAction w now ⟨FILE_ACTION_ADDED, n⟩).2 = "CREATED|" ++ (w.basePath ++ "\\" ++ n) ∧
    (switchAction w now ⟨FILE_ACTION_REMOVED, n⟩).2 = "DELETED|" ++ (w.basePath ++ "\\" ++ n) ∧
    ((switchAction w now ⟨FILE_ACTION_MODIFIED, n⟩).2 =
        "MODIFIED|" ++ (w.basePath ++ "\\" ++ n) ∨
      (switchAction w now ⟨FILE_ACTION_MODIFIED, n⟩).2 = "") ∧
    (switchAction w now ⟨FILE_ACTION_RENAMED_OLD_NAME, n⟩).1.renameOldPath =
      w.basePath ++ "\\" ++ n ∧
    (switchAction w now ⟨FILE_ACTION_RENAMED_NEW_NAME, n⟩).2 =
      "RENAMED|" ++ w.renameOldPath ++ "|" ++ (w.basePath ++ "\\" ++ n) ∧
    (switchAction { w with basePath := "C:\\w" } now ⟨FILE_ACTION_ADDED, "a|b.txt"⟩).2 =
      "CREATED|C:\\w\\a|b.txt" := by
  have hbase : w.running = false →
      (fswatcher_start w path createFile createEvent).1.basePath = normalizeBasePath path := by
    intro hw
    by_cases hc : createFile = INVALID_HANDLE_VALUE <;> simp [fswatcher_start, hw, hc]
  refine ⟨?_, ?_, ?_, ?_, ?_, ?_, ?_, ?_, ?_, ?_⟩
  · intro hw
    refine ⟨?_, ?_⟩
    · intro t ht
      rw [hbase hw]
      rcases ht with ht | ht
      · rw [ht, normalizeBasePath_backslash]
      · rw [ht, normalizeBasePath_slash]
    · intro ht
      rw [hbase hw, normalizeBasePath_other path ht]
  · intro t
    exact ⟨normalizeBasePath_backslash _, normalizeBasePath_slash _,
      normalizeBasePath_slash _, normalizeBasePath_backslash _⟩
  · decide
  · intro rs
    exact (watchThread_frame w rs).2.1
  · simp [switchAction, fullPath, FILE_ACTION_ADDED]
  · simp [switchAction, fullPath, FILE_ACTION_ADDED, FILE_ACTION_REMOVED]
  · by_cases h : (shouldEmitModified w.lastModifiedTime now (fullPath w n)).1 = true
    · left
      simp [switchAction, fullPath, FILE_ACTION_ADDED, FILE_ACTION_REMOVED,
        FILE_ACTION_MODIFIED] at h ⊢
      simp [h]
    · right
      simp [switchAction, fullPath, FILE_ACTION_ADDED, FILE_ACTION_REMOVED,
        FILE_ACTION_MODIFIED] at h ⊢
      simp [h]
  · simp [switchAction, fullPath, FILE_ACTION_ADDED, FILE_ACTION_REMOVED,
      FILE_ACTION_MODIFIED, FILE_ACTION_RENAMED_OLD_NAME]
  · simp [switchAction, fullPath, FILE_ACTION_ADDED, FILE_ACTION_REMOVED,
      FILE_ACTION_MODIFIED, FILE_ACTION_RENAMED_OLD_NAME, FILE_ACTION_RENAMED_NEW_NAME]
  · simp [switchAction, fullPath, FILE_ACTION_ADDED]

/-- C9, at an instance: a start with `C:\w\`, where the directory cannot be opened, still
stores `C:\w`, and a start with `C:\w` stores `C:\w`. -/
theorem base_path_and_resolution_witness :
    (fswatcher_start Watcher.init "C:\\w\\" INVALID_HANDLE_VALUE 8).1.basePath = "C:\\w" ∧
    (fswatcher_start Watcher.init "C:\\w" 7 8).1.basePath = "C:\\w" :=
  ⟨((base_path_and_resolution Watcher.init "C:\\w\\" INVALID_HANDLE_VALUE 8 0 "a").1 rfl).1
      "C:\\w" (Or.inl (by decide)),
    ((base_path_and_resolution Watcher.init "C:\\w" 7 8 0 "a").1 rfl).2
      (fun t =>
        ⟨fun h => absurd ((congrArg back? h).trans (back_append_backslash t)) (by decide),
          fun h => absurd ((congrArg back? h).trans (back_append_slash t)) (by decide)⟩)⟩

/-! ## A RenameNew record without its RenameOld record -/

/-- C10: a RenameNew record for `q` processed while the pending old name is empty still
queues one event, `RENAMED||q`, and leaves the pending old name empty. The pending old
name is empty right after a successful start, right after a rename pair, and after any
run of Added, Removed and Modified records from a state where it is empty. Hence
RenameOld for `p`, RenameNew for `q1`, RenameNew for `q2` queue `RENAMED|p|q1` and then
`RENAMED||q2`. -/
theorem unpaired_rename_new (w : Watcher) (now : TimePoint) (q : String) :
    (w.renameOldPath = "" →
      processRecord w now ⟨FILE_ACTION_RENAMED_NEW_NAME, q⟩ =
        { w with eventQueue := w.eventQueue ++ ["RENAMED||" ++ fullPath w q] } ∧
      (processRecord w now ⟨FILE_ACTION_RENAMED_NEW_NAME, q⟩).renameOldPath = "") ∧
    (Reachable w → ∀ (path : String) (createFile createEvent : HANDLE),
      (fswatcher_start w path createFile createEvent).2 = 1 →
      (fswatcher_start w path createFile createEvent).1.renameOldPath = "") ∧
    (∀ (t1 t2 : TimePoint) (old new : String),
      (processRecord (processRecord w t1 ⟨FILE_ACTION_RENAMED_OLD_NAME, old⟩) t2
        ⟨FILE_ACTION_RENAMED_NEW_NAME, new⟩).renameOldPath = "") ∧
    (w.renameOldPath = "" → ∀ rs : List (TimePoint × FILE_NOTIFY_INFORMATION),
      (∀ r ∈ rs, r.2.Action = FILE_ACTION_ADDED ∨ r.2.Action = FILE_ACTION_REMOVED ∨
        r.2.Action = FILE_ACTION_MODIFIED) →
      (watchThread w rs).renameOldPath = "") ∧
    (∀ (t1 t2 t3 : TimePoint) (p q1 q2 : String),
      watchThread w [(t1, ⟨FILE_ACTION_RENAMED_OLD_NAME, p⟩),
          (t2, ⟨FILE_ACTION_RENAMED_NEW_NAME, q1⟩), (t3, ⟨FILE_ACTION_RENAMED_NEW_NAME, q2⟩)] =
        { w with
            eventQueue := w.eventQueue ++
              ["RENAMED|" ++ fullPath w p ++ "|" ++ fullPath w q1, "RENAMED||" ++ fullPath w q2]
            renameOldPath := "" }) := by
  have hlit : ∀ s : String, "RENAMED|" ++ "" ++ "|" ++ s = "RENAMED||" ++ s := by
    intro s
    rw [String.append_empty, String.append_assoc]
    rfl
  refine ⟨?_, ?_, ?_, ?_, ?_⟩
  · intro h
    rw [processRecord_renamed_new, h, hlit]
    refine ⟨?_, rfl⟩
    cases w
    simp_all
  · intro hr path cf ce hs
    by_cases hrun : w.running = true
    · simp [fswatcher_start, hrun] at hs
    · have hf : w.running = false := by simpa using hrun
      have hc := cleared_of_not_running w hr hf
      by_cases hcf : cf = INVALID_HANDLE_VALUE <;>
        simp [fswatcher_start, hf, hcf, hc.2.2]
  · intro t1 t2 old new
    rw [processRecord_renamed_new]
  · intro h rs
    induction rs generalizing w with
    | nil => intro _; exact h
    | cons r rest ih =>
      obtain ⟨t, ⟨action, n⟩⟩ := r
      intro hrs
      simp only [watchThread]
      apply ih
      · rcases hrs (t, ⟨action, n⟩) (List.mem_cons_self _ _) with ha | ha | ha
        · simp only at ha
          subst ha
          rw [processRecord_added]
          exact h
        · simp only at ha
          subst ha
          rw [processRecord_removed]
          exact h
        · simp only at ha
          subst ha
          rw [processRecord_modified]
          split_ifs <;> exact h
      · exact fun r hr => hrs r (List.mem_cons_of_mem _ hr)
  · intro t1 t2 t3 p q1 q2
    simp [watchThread, processRecord_renamed_old, processRecord_renamed_new, fullPath, hlit]

/-- C10, at an instance: the first record of a fresh session is a RenameNew record; the
pending old name is empty after a start from the load-time state and after an Added, a
Modified and a Removed record. -/
theorem unpaired_rename_new_witness :
    processRecord { Watcher.init with basePath := "C:\\w", running := true } 0
        ⟨FILE_ACTION_RENAMED_NEW_NAME, "b"⟩ =
      { Watcher.init with
          basePath := "C:\\w", running := true, eventQueue := ["RENAMED||C:\\w\\b"] } ∧
    (fswatcher_start Watcher.init "C:\\w" 7 8).1.renameOldPath = "" ∧
    (watchThread { Watcher.init with basePath := "C:\\w", running := true }
      [(0, ⟨FILE_ACTION_ADDED, "a"⟩), (1, ⟨FILE_ACTION_MODIFIED, "a"⟩),
        (2, ⟨FILE_ACTION_REMOVED, "a"⟩)]).renameOldPath = "" :=
  ⟨((unpaired_rename_new { Watcher.init with basePath := "C:\\w", running := true } 0 "b").1
      rfl).1,
    (unpaired_rename_new Watcher.init 0 "b").2.1 Reachable.init "C:\\w" 7 8 (by decide),
    (unpaired_rename_new { Watcher.init with basePath := "C:\\w", running := true } 0
      "b").2.2.2.1 rfl
      [(0, ⟨FILE_ACTION_ADDED, "a"⟩), (1, ⟨FILE_ACTION_MODIFIED, "a"⟩),
        (2, ⟨FILE_ACTION_REMOVED, "a"⟩)]
      (by decide)⟩

end FsWatcher
